import Mathlib

/-!
Shallow embedding of the track segmentation and derived-quantity engine of
`DataProcess/DataProcess.py` (TCRM).  Machine floats are modelled by exact
rationals (with an explicit four-value IEEE-style type where NaN/inf
semantics matter); `sys.maxint` (Python 2, 64-bit) is the missing-value
sentinel used throughout the source.
-/

namespace TCRM

/-- `sys.maxint` on a 64-bit Python 2 build, the sentinel marker value. -/
def maxintQ : ℚ := 2 ^ 63 - 1

/-! ## Track segmentation (DataProcess.processData, lines 280-307)

The primary indicator is computed from whichever identifying columns are
available, in the fixed priority of the source's if/elif chain. -/

/-- Body of the loop `for i in range(1, len(tcSerialNo)): if tcSerialNo[i] ==
tcSerialNo[i-1]: indicator[i] = 0` (lines 286-289); `prev` is the previous
serial number. -/
def serialAux (prev : String) : List String → List ℤ
  | [] => []
  | s :: rest => (if s = prev then 0 else 1) :: serialAux s rest

/-- Indicator from the `tcserialno` column: initialised to ones, zeroed where
the serial number repeats (lines 284-289). -/
def serialIndicator : List String → List ℤ
  | [] => []
  | s :: rest => 1 :: serialAux s rest

/-- Body of the loop `if season[i] == season[i-1] and num[i] == num[i-1]:
indicator[i] = 0` (lines 295-297); `prev` is the previous (season, num) pair. -/
def seasonNumAux (prev : ℤ × ℤ) : List (ℤ × ℤ) → List ℤ
  | [] => []
  | p :: rest => (if p.1 = prev.1 ∧ p.2 = prev.2 then 0 else 1) :: seasonNumAux p rest

/-- Indicator from the (`season`, `num`) pair (lines 290-297). -/
def seasonNumIndicator : List (ℤ × ℤ) → List ℤ
  | [] => []
  | p :: rest => 1 :: seasonNumAux p rest

/-- Per-position value of `ind_ = diff(num); ind_[where(ind_ > 0)] = 1`
(lines 302-303): positive differences are clamped to 1, other differences
(zero or negative) are stored as-is. -/
def numOnlyAux (prev : ℤ) : List ℤ → List ℤ
  | [] => []
  | n :: rest => (if n - prev > 0 then 1 else n - prev) :: numOnlyAux n rest

/-- Indicator from the `num` column alone (lines 298-304):
`indicator = ones(num.size); indicator[1:] = ind_`. -/
def numOnlyIndicator : List ℤ → List ℤ
  | [] => []
  | n :: rest => 1 :: numOnlyAux n rest

/-- The optional identifying columns of the input file that the segmenter
consults (presence of a key in `inputData`). -/
structure SegColumns where
  index : Option (List ℤ)
  tcserialno : Option (List String)
  season : Option (List ℤ)
  num : Option (List ℤ)

/-- The if/elif cascade of lines 280-307: explicit `index` column used
verbatim, else serial number, else (season, num), else num alone, else a
fatal configuration error (`sys.exit(2)`), modelled as `none`. -/
def primaryIndicator (d : SegColumns) : Option (List ℤ) :=
  match d.index with
  | some idx => some idx
  | none =>
    match d.tcserialno with
    | some sn => some (serialIndicator sn)
    | none =>
      match d.season, d.num with
      | some season, some num => some (seasonNumIndicator (season.zip num))
      | none, some num => some (numOnlyIndicator num)
      | _, none => none

/-- Body of the forced-split override (lines 405-414):
`indicator[where(delta_lon > 15)[0] + 1] = 1` and
`indicator[where(delta_lat > 5)[0] + 1] = 1`, where `delta_lon = diff(lon)`
and `delta_lat = diff(lat)` are the signed first differences.  `pLon`/`pLat`
are the previous observation's coordinates. -/
def forceSplitAux (pLon pLat : ℚ) : List ℤ → List ℚ → List ℚ → List ℤ
  | i :: is, x :: xs, y :: ys =>
    (if x - pLon > 15 ∨ y - pLat > 5 then 1 else i) :: forceSplitAux x y is xs ys
  | is, _, _ => is

/-- Forced-split override applied to the primary indicator: the first
position has no predecessor and is left untouched. -/
def forceSplit (ind : List ℤ) (lon lat : List ℚ) : List ℤ :=
  match ind, lon, lat with
  | i :: is, x :: xs, y :: ys => i :: forceSplitAux x y is xs ys
  | is, _, _ => is

/-- The complete indicator pipeline of `processData`: primary strategy
(lines 280-307) followed by the forced-split override (lines 405-414).
`lon` is assumed already normalised by `mod(lon, 360)` (line 406). -/
def fullIndicator (d : SegColumns) (lon lat : List ℚ) : Option (List ℤ) :=
  (primaryIndicator d).map (fun ind => forceSplit ind lon lat)

/-! ## Non-singleton initial index (lines 474-475) -/

/-- `indicator2 = where(indicator > 0, 1, 0)` (line 474). -/
def indicator2Of (indicator : List ℤ) : List ℤ :=
  indicator.map (fun k => if k > 0 then 1 else 0)

/-- `concatenate([where(diff(indicator2) == -1, 1, 0), [0]])` (line 475):
positionwise, 1 where the next entry drops from 1 to 0, with a trailing 0
appended for the final position. -/
def initAux : List ℤ → List ℤ
  | a :: b :: rest => (if b - a = -1 then 1 else 0) :: initAux (b :: rest)
  | _ => [0]

/-- The non-singleton initial index `initIndex` of lines 474-475. -/
def initIndexOf (indicator : List ℤ) : List ℤ :=
  initAux (indicator2Of indicator)

/-! ## Date-string parsing (lines 317-336)

The loop `for i in range(len(inputData['date']))` tries
`datetime.datetime.strptime` on each record; on `ValueError` it logs three
critical messages but does NOT abort, then executes `year[i] = d.year` etc.
with `d` still holding the previous record's parse result (or unbound, a
`NameError`, when the very first record fails).  The external `strptime` is a
parameter `parse`; a parsed date is its field tuple. -/

structure DateRec where
  year : ℤ
  month : ℤ
  day : ℤ
  hour : ℤ
  minute : ℤ
deriving DecidableEq, Repr

/-- One pass of the loop of lines 324-336.  `d` is the loop-carried variable
of the Python code: `none` before any successful parse.  The result is
`none` exactly when a record fails to parse while `d` is still unbound (the
`NameError` crash); otherwise it is the list of per-record field tuples the
loop writes into `year`, `month`, `day`, `hour`, `minute`. -/
def parseDatesLoop (parse : String → Option DateRec) :
    List String → Option DateRec → Option (List DateRec)
  | [], _ => some []
  | s :: rest, d =>
    match parse s, d with
    | some v, _ => (parseDatesLoop parse rest (some v)).map (v :: ·)
    | none, some v => (parseDatesLoop parse rest (some v)).map (v :: ·)
    | none, none => none

/-- The date-parsing loop started with `d` unbound. -/
def parseDates (parse : String → Option DateRec) (dates : List String) :
    Option (List DateRec) :=
  parseDatesLoop parse dates none

/-! ## Optional max-wind column (lines 440-447)

`vmax = array(inputData['vmax'], 'd')` with sentinel save/restore around the
unit conversion; on `KeyError` a warning is logged and
`vmax = empty(indicator.size, 'f')` — `numpy.empty` returns an
UNINITIALISED array, so its contents are arbitrary; they are modelled by the
parameter `mem` (the reclaimed memory), constrained only in length. -/

/-- `novalue_index = where(v == sys.maxint); v = convert(v, ...);
v[novalue_index] = sys.maxint` (lines 442-444), pointwise: sentinel entries
are restored after conversion. -/
def convertKeepSentinel (conv : ℚ → ℚ) (v : List ℚ) : List ℚ :=
  v.map (fun x => if x = maxintQ then maxintQ else conv x)

/-- The try/except of lines 440-447.  Returns (warning-issued, vmax array).
`indSize` is `indicator.size`; `mem` is the uninitialised memory returned by
`numpy.empty`, of length `indSize`. -/
def getVmaxStep (vmaxCol : Option (List ℚ)) (conv : ℚ → ℚ)
    (indSize : ℕ) (mem : List ℚ) : Bool × List ℚ :=
  match vmaxCol with
  | some v => (false, convertKeepSentinel conv v)
  | none => (true, mem.take indSize)

/-! ## Float values with IEEE special values

The rate computations divide by elapsed time, which can be zero or
uninitialised, so the embedding needs NaN and the infinities: `FVal` is a
finite rational, +inf, -inf or NaN, with numpy's arithmetic on them. -/

inductive FVal where
  | fin : ℚ → FVal
  | inf : FVal
  | ninf : FVal
  | nan : FVal
deriving DecidableEq, Repr

namespace FVal

/-- IEEE subtraction. -/
def sub : FVal → FVal → FVal
  | fin a, fin b => fin (a - b)
  | nan, _ => nan
  | _, nan => nan
  | inf, inf => nan
  | inf, _ => inf
  | ninf, ninf => nan
  | ninf, _ => ninf
  | fin _, inf => ninf
  | fin _, ninf => inf

/-- IEEE division as numpy computes it (0/0 = NaN, x/0 = ±inf, x/±inf = 0;
rationals have no signed zero, so the zero divisor carries positive sign). -/
def div : FVal → FVal → FVal
  | nan, _ => nan
  | _, nan => nan
  | fin a, fin b =>
    if b = 0 then (if a = 0 then nan else if a > 0 then inf else ninf)
    else fin (a / b)
  | fin _, inf => fin 0
  | fin _, ninf => fin 0
  | inf, fin b => if b < 0 then ninf else inf
  | ninf, fin b => if b < 0 then inf else ninf
  | inf, _ => nan
  | ninf, _ => nan

/-- `isnan`. -/
def isnan : FVal → Bool
  | nan => true
  | _ => false

/-- A finite value (not NaN and not an infinity). -/
def isFinite : FVal → Bool
  | fin _ => true
  | _ => false

/-- The comparison `x >= q` against a rational bound (False on NaN, per
IEEE). -/
def geQ : FVal → ℚ → Bool
  | fin a, q => a ≥ q
  | inf, _ => true
  | ninf, _ => false
  | nan, _ => false

/-- The comparison `abs(x) > q` against a nonnegative rational bound (False
on NaN, per IEEE; abs of an infinity is +inf). -/
def absGt : FVal → ℚ → Bool
  | fin a, q => |a| > q
  | inf, _ => true
  | ninf, _ => true
  | nan, _ => false

end FVal

/-- The sentinel as a float value. -/
def sentinelF : FVal := .fin maxintQ

/-- `diff`: first differences of a float array, `d[i] = x[i+1] - x[i]`. -/
def diffF : List FVal → List FVal
  | a :: b :: rest => (FVal.sub b a) :: diffF (b :: rest)
  | _ => []

/-! ## Rate of pressure change (DataProcess._pressureRate, lines 695-735) -/

/-- Lines 713-718: `pressureChange = empty(n); pressureChange[1:] =
diff(pressure); pressureRate = pressureChange / dt`.  `pc0` is the
uninitialised entry `pressureChange[0]`; `dt` is passed in whole (its own
first entry is likewise uninitialised in `processData`). -/
def rawPressureRate (pressure dt : List FVal) (pc0 : FVal) : List FVal :=
  List.zipWith FVal.div (pc0 :: diffF pressure) dt

/-- `putmask(x, isnan(x), sys.maxint)` pointwise (line 728). -/
def maskNaN (r : FVal) : FVal := if r.isnan then sentinelF else r

/-- `putmask(x, abs(x) > 10, sys.maxint)` pointwise (line 729). -/
def maskBig (r : FVal) : FVal := if r.absGt 10 then sentinelF else r

/-- Lines 726-729, the four `putmask` calls applied in source order to the
raw rate: mask at track starts (`indicator` truthy, i.e. nonzero), mask
where `pressure >= sys.maxint`, mask NaN results, mask `abs(rate) > 10`. -/
def pressureRateOf (pressure dt : List FVal) (indicator : List ℤ)
    (pc0 : FVal) : List FVal :=
  (((List.zipWith (fun r k => if k ≠ 0 then sentinelF else r)
        (rawPressureRate pressure dt pc0) indicator).zipWith
      (fun r p => if p.geQ maxintQ then sentinelF else r) pressure).map maskNaN).map maskBig

/-! ## Rate of bearing change: circular differencing
(DataProcess._bearingRate, lines 753-759) -/

/-- `diff` on rationals. -/
def diffQ : List ℚ → List ℚ
  | a :: b :: rest => (b - a) :: diffQ (b :: rest)
  | _ => []

/-- Lines 753-757: `bearingChange_ = diff(bear); bearingChange_[where(> 180)]
-= 360; bearingChange_[where(< -180)] += 360` (a single raw difference of
two bearings in [0, 360) cannot trigger both branches). -/
def bearingChangeOf (bear : List ℚ) : List ℚ :=
  (diffQ bear).map (fun d => if d > 180 then d - 360 else if d < -180 then d + 360 else d)

/-! ## Pressure partitions (DataProcess._pressure, lines 657-672) -/

/-- `numpy.compress(mask)` with an integer mask: keep entries whose mask
value is truthy (nonzero). -/
def compressNZ (xs : List ℚ) (mask : List ℤ) : List ℚ :=
  (xs.zip mask).filterMap (fun pk => if pk.2 ≠ 0 then some pk.1 else none)

/-- `initPressure = pressure.compress(indicator)` (line 670). -/
def initPressureOf (pressure : List ℚ) (indicator : List ℤ) : List ℚ :=
  compressNZ pressure indicator

/-- `pressureNoInit = pressure.compress(indicator == 0);
pressureNoInit = pressureNoInit.compress(pressureNoInit < sys.maxint)`
(lines 671-672). -/
def pressureNoInitOf (pressure : List ℚ) (indicator : List ℤ) : List ℚ :=
  (((pressure.zip indicator).filterMap
    (fun pk => if pk.2 = 0 then some pk.1 else none)).filter (fun p => p < maxintQ))

/-- The spec's description of the initial-pressure partition: the pressure
values at the positions where the indicator is nonzero, in order, nothing
else removed. -/
def initPressureSpec (pressure : List ℚ) (indicator : List ℤ) : List ℚ :=
  ((pressure.zip indicator).filter (fun pk => pk.2 ≠ 0)).map Prod.fst

/-! ## Julian-day leap shift (DataProcess._juliandays, lines 925-927) -/

/-- The loop `for i in range(len(jdays)): if (years[i] % 4 == 0) and
(jdays[i] >= 60): jdays[i] -= 1`. -/
def shiftJdays : List ℤ → List ℤ → List ℤ
  | j :: js, y :: ys => (if y % 4 = 0 ∧ j ≥ 60 then j - 1 else j) :: shiftJdays js ys
  | js, _ => js

/-- The Gregorian leap-year rule (what "leap year" means in the calendar the
data uses). -/
def isLeapYear (y : ℤ) : Bool :=
  y % 4 = 0 ∧ (y % 100 ≠ 0 ∨ y % 400 = 0)

/-! ## Pointwise access helpers -/

/-- `getD` through `map`. -/
theorem getD_map_of_lt {α β : Type} (f : α → β) (dA : α) (dB : β) :
    ∀ (l : List α) (i : ℕ), i < l.length → (l.map f).getD i dB = f (l.getD i dA)
  | _ :: _, 0, _ => rfl
  | _ :: t, i + 1, hi => getD_map_of_lt f dA dB t i (Nat.lt_of_succ_lt_succ hi)

/-- `getD` through `zipWith`. -/
theorem getD_zipWith_of_lt {α β γ : Type} (f : α → β → γ) (dA : α) (dB : β) (dC : γ) :
    ∀ (l : List α) (m : List β) (i : ℕ), i < l.length → i < m.length →
      (List.zipWith f l m).getD i dC = f (l.getD i dA) (m.getD i dB)
  | _ :: _, _ :: _, 0, _, _ => rfl
  | _ :: t, _ :: u, i + 1, hi, hj =>
    getD_zipWith_of_lt f dA dB dC t u i (Nat.lt_of_succ_lt_succ hi) (Nat.lt_of_succ_lt_succ hj)

/-- `diffQ` shortens the list by one. -/
theorem diffQ_length : ∀ l : List ℚ, (diffQ l).length = l.length - 1
  | [] => rfl
  | [_] => rfl
  | a :: b :: rest => by
    have := diffQ_length (b :: rest)
    simp [diffQ] at this ⊢
    omega

/-- Pointwise value of `diffQ`. -/
theorem diffQ_getD : ∀ (l : List ℚ) (i : ℕ), i + 1 < l.length →
    (diffQ l).getD i 0 = l.getD (i + 1) 0 - l.getD i 0
  | a :: b :: rest, 0, _ => rfl
  | a :: b :: rest, i + 1, hi => by
    have := diffQ_getD (b :: rest) i (Nat.lt_of_succ_lt_succ hi)
    simpa [diffQ] using this

/-! ## C8: circular bearing differencing -/

/-- Claim C8 (confirmed).  In `_bearingRate` (lines 753-759), every raw
first difference of consecutive bearings greater than 180 has 360
subtracted, every difference below -180 has 360 added, and differences in
[-180, 180] pass through, all before the division by elapsed time; the
bearing sequence [350, 10] yields the wrapped difference +20. -/
theorem bearing_wrap (bear : List ℚ) (i : ℕ) (hi : i + 1 < bear.length) :
    ((bear.getD (i+1) 0 - bear.getD i 0 > 180 →
        (bearingChangeOf bear).getD i 0 = bear.getD (i+1) 0 - bear.getD i 0 - 360)
      ∧ (bear.getD (i+1) 0 - bear.getD i 0 < -180 →
        (bearingChangeOf bear).getD i 0 = bear.getD (i+1) 0 - bear.getD i 0 + 360)
      ∧ (-180 ≤ bear.getD (i+1) 0 - bear.getD i 0 → bear.getD (i+1) 0 - bear.getD i 0 ≤ 180 →
        (bearingChangeOf bear).getD i 0 = bear.getD (i+1) 0 - bear.getD i 0))
    ∧ bearingChangeOf [350, 10] = [20] := by
  have hlen : i < (diffQ bear).length := by rw [diffQ_length]; omega
  have hmap : (bearingChangeOf bear).getD i 0 =
      (fun d => if d > 180 then d - 360 else if d < -180 then d + 360 else d)
        ((diffQ bear).getD i 0) :=
    getD_map_of_lt _ 0 0 (diffQ bear) i hlen
  rw [diffQ_getD bear i hi] at hmap
  refine ⟨⟨fun h => ?_, fun h => ?_, fun h1 h2 => ?_⟩, by norm_num [bearingChangeOf, diffQ]⟩
  · rw [hmap]; simp only [if_pos h]
  · rw [hmap]
    have hn : ¬ (bear.getD (i+1) 0 - bear.getD i 0 > 180) := by linarith
    simp only [if_neg hn, if_pos h]
  · rw [hmap]
    have hn : ¬ (bear.getD (i+1) 0 - bear.getD i 0 > 180) := by linarith
    have hn2 : ¬ (bear.getD (i+1) 0 - bear.getD i 0 < -180) := by linarith
    simp only [if_neg hn, if_neg hn2]

/-- Witness for `bearing_wrap` at the concrete bearing list [350, 10]. -/
theorem bearing_wrap_witness :
    (0 + 1 < ([350, 10] : List ℚ).length)
      ∧ (bearingChangeOf [350, 10]).getD 0 0 = ([350, 10] : List ℚ).getD 1 0 - ([350, 10] : List ℚ).getD 0 0 + 360 :=
  ⟨by decide, ((bearing_wrap [350, 10] 0 (by decide)).1.2.1 (by norm_num))⟩

/-! ## C9: julian-day leap shift -/

/-- Pointwise value of `shiftJdays`. -/
theorem shiftJdays_getD : ∀ (js ys : List ℤ) (i : ℕ), i < js.length → i < ys.length →
    (shiftJdays js ys).getD i 0 =
      if ys.getD i 0 % 4 = 0 ∧ js.getD i 0 ≥ 60 then js.getD i 0 - 1 else js.getD i 0
  | j :: js, y :: ys, 0, _, _ => rfl
  | j :: js, y :: ys, i + 1, hi, hj => by
    have := shiftJdays_getD js ys i (Nat.lt_of_succ_lt_succ hi) (Nat.lt_of_succ_lt_succ hj)
    simpa [shiftJdays] using this

/-- Counterexample to claim C9 as stated: in `_juliandays` the shift fires
on `years[i] % 4 == 0`, not on true leap years.  Year 1900 is not a leap
year, yet day-of-year 100 in 1900 is decremented to 99, contradicting
"observations in non-leap years are left unchanged". -/
theorem jday_shift_nonleap_century :
    shiftJdays [100] [1900] = [99] ∧ isLeapYear 1900 = false ∧ (99 : ℤ) ≠ 100 := by
  decide

/-- Claim C9 as amended (divisible-by-4 in place of leap year): before the
histograms are built, every observation whose year is divisible by 4 and
whose day-of-year is at least 60 has its day-of-year decremented by exactly
one; all other observations are unchanged (lines 925-927). -/
theorem jday_shift_characterization (jdays years : List ℤ) (i : ℕ)
    (hiJ : i < jdays.length) (hiY : i < years.length) :
    ((years.getD i 0 % 4 = 0 ∧ jdays.getD i 0 ≥ 60 →
        (shiftJdays jdays years).getD i 0 = jdays.getD i 0 - 1)
      ∧ (¬ (years.getD i 0 % 4 = 0 ∧ jdays.getD i 0 ≥ 60) →
        (shiftJdays jdays years).getD i 0 = jdays.getD i 0)) := by
  rw [shiftJdays_getD jdays years i hiJ hiY]
  constructor
  · intro h; simp only [if_pos h]
  · intro h; simp only [if_neg h]

/-- Witness for `jday_shift_characterization` at jdays = [100, 30],
years = [2004, 2004]. -/
theorem jday_shift_witness :
    (shiftJdays [100, 30] [2004, 2004]).getD 0 0 = 100 - 1
      ∧ (shiftJdays [100, 30] [2004, 2004]).getD 1 0 = 30 :=
  ⟨(jday_shift_characterization [100, 30] [2004, 2004] 0 (by decide) (by decide)).1 (by decide),
   (jday_shift_characterization [100, 30] [2004, 2004] 1 (by decide) (by decide)).2 (by decide)⟩

/-! ## C10: initial-pressure partition keeps sentinels -/

/-- `filterMap` with an if-guard is filter-then-project. -/
theorem filterMap_guard {α β : Type} (f : α → β) (p : α → Prop) [DecidablePred p] :
    ∀ l : List α,
      (l.filterMap fun a => if p a then some (f a) else none) =
        (l.filter fun a => p a).map f := by
  intro l
  induction l with
  | nil => rfl
  | cons a t ih =>
    by_cases h : p a <;>
      simp [List.filterMap_cons, List.filter_cons, h, ih]

/-- `getD` through `zip`. -/
theorem getD_zip_of_lt {α β : Type} (dA : α) (dB : β) :
    ∀ (l : List α) (m : List β) (i : ℕ), i < l.length → i < m.length →
      (l.zip m).getD i (dA, dB) = (l.getD i dA, m.getD i dB)
  | _ :: _, _ :: _, 0, _, _ => rfl
  | _ :: t, _ :: u, i + 1, hi, hj =>
    getD_zip_of_lt dA dB t u i (Nat.lt_of_succ_lt_succ hi) (Nat.lt_of_succ_lt_succ hj)

/-- An in-bounds `getD` is a member of the list. -/
theorem getD_mem_of_lt {α : Type} (d : α) :
    ∀ (l : List α) (i : ℕ), i < l.length → l.getD i d ∈ l
  | a :: _, 0, _ => List.mem_cons_self a _
  | a :: t, i + 1, hi =>
    List.mem_cons_of_mem a (getD_mem_of_lt d t i (Nat.lt_of_succ_lt_succ hi))

/-- Claim C10 (confirmed).  In `_pressure` (lines 657-672) the
initial-pressure partition is the plain `compress(indicator)` of the
pressure array: exactly the pressure values at nonzero-indicator positions,
with no sentinel filtering, so a track whose genesis fix has missing
pressure contributes the sentinel; only the non-initial partition
additionally drops entries not below `sys.maxint`. -/
theorem init_pressure_unfiltered (pressure : List ℚ) (indicator : List ℤ) :
    initPressureOf pressure indicator = initPressureSpec pressure indicator
      ∧ (∀ i, i < pressure.length → i < indicator.length →
          indicator.getD i 0 ≠ 0 → pressure.getD i 0 = maxintQ →
          maxintQ ∈ initPressureOf pressure indicator)
      ∧ (∀ x ∈ pressureNoInitOf pressure indicator, x < maxintQ) := by
  refine ⟨?_, ?_, ?_⟩
  · exact filterMap_guard Prod.fst (fun pk => pk.2 ≠ 0) (pressure.zip indicator)
  · intro i hip hii hnz hmax
    have hzip : (pressure.zip indicator).getD i (0, 0) =
        (pressure.getD i 0, indicator.getD i 0) :=
      getD_zip_of_lt 0 0 pressure indicator i hip hii
    have hmem : (pressure.getD i 0, indicator.getD i 0) ∈ pressure.zip indicator := by
      rw [← hzip]
      apply getD_mem_of_lt
      rw [List.length_zip]
      omega
    refine List.mem_filterMap.2 ⟨(pressure.getD i 0, indicator.getD i 0), hmem, ?_⟩
    rw [if_pos hnz, hmax]
  · intro x hx
    have := List.of_mem_filter hx
    simpa using this

/-- Witness for `init_pressure_unfiltered`: with pressure
[sentinel, 990, sentinel] and indicator [1, 0, 0], the sentinel is a member
of the initial partition and the non-initial partition is sentinel-free. -/
theorem init_pressure_unfiltered_witness :
    maxintQ ∈ initPressureOf [maxintQ, 990, maxintQ] [1, 0, 0] :=
  (init_pressure_unfiltered [maxintQ, 990, maxintQ] [1, 0, 0]).2.1 0
    (by decide) (by decide) (by decide) rfl

/-! ## C4: non-singleton initial index -/

/-- Pointwise value of `initAux`. -/
theorem initAux_getD : ∀ (l : List ℤ) (i : ℕ), i < l.length →
    (initAux l).getD i 0 =
      if i + 1 < l.length ∧ l.getD (i + 1) 0 - l.getD i 0 = -1 then 1 else 0
  | [_], 0, _ => by simp [initAux]
  | a :: b :: rest, 0, _ => by
    by_cases h : b - a = -1 <;> simp [initAux, h]
  | a :: b :: rest, i + 1, hi => by
    have := initAux_getD (b :: rest) i (Nat.lt_of_succ_lt_succ hi)
    simp only [initAux, List.getD_cons_succ]
    rw [this]
    have hlen : i + 1 + 1 < (a :: b :: rest).length ↔ i + 1 < (b :: rest).length := by
      simp only [List.length_cons]
      omega
    by_cases hc : i + 1 < (b :: rest).length ∧
        (b :: rest).getD (i + 1) 0 - (b :: rest).getD i 0 = -1
    · rw [if_pos hc, if_pos]
      exact ⟨hlen.2 hc.1, by simpa using hc.2⟩
    · rw [if_neg hc, if_neg]
      intro hc2
      exact hc ⟨hlen.1 hc2.1, by simpa using hc2.2⟩

/-- Claim C4 (confirmed).  The non-singleton initial index (lines 474-475)
flags position i exactly when the indicator is 1 there, i is not the last
position, and the indicator is 0 at i+1; the last position is never
flagged; on [1,0,1,1,0,1] the result is [1,0,0,1,0,0]. -/
theorem initIndex_characterization (indicator : List ℤ)
    (h01 : ∀ k ∈ indicator, k = 0 ∨ k = 1) (i : ℕ) (hi : i < indicator.length) :
    ((initIndexOf indicator).getD i 0 = 1 ↔
        indicator.getD i 0 = 1 ∧ i + 1 < indicator.length ∧ indicator.getD (i + 1) 0 = 0)
      ∧ (i = indicator.length - 1 → (initIndexOf indicator).getD i 0 = 0)
      ∧ initIndexOf [1, 0, 1, 1, 0, 1] = [1, 0, 0, 1, 0, 0] := by
  have hlen2 : (indicator2Of indicator).length = indicator.length := by
    simp [indicator2Of]
  have hval : ∀ j, j < indicator.length →
      (indicator2Of indicator).getD j 0 = indicator.getD j 0 := by
    intro j hj
    have hmem : indicator.getD j 0 ∈ indicator := getD_mem_of_lt 0 indicator j hj
    show (indicator.map fun k => if k > 0 then 1 else 0).getD j 0 = indicator.getD j 0
    rw [getD_map_of_lt (fun k : ℤ => if k > 0 then 1 else 0) 0 0 indicator j hj]
    rcases h01 _ hmem with h | h <;> rw [h] <;> norm_num
  have hmain : (initIndexOf indicator).getD i 0 =
      if i + 1 < indicator.length ∧
          indicator.getD (i + 1) 0 - indicator.getD i 0 = -1 then 1 else 0 := by
    rw [initIndexOf, initAux_getD _ i (by rw [hlen2]; exact hi), hlen2]
    by_cases hc : i + 1 < indicator.length
    · rw [hval i hi, hval (i + 1) hc]
    · rw [if_neg (fun h => hc h.1), if_neg (fun h => hc h.1)]
  refine ⟨?_, ?_, by decide⟩
  · rw [hmain]
    constructor
    · intro h
      split_ifs at h with hc
      · obtain ⟨h1, h2⟩ := hc
        have hm0 : indicator.getD i 0 ∈ indicator := getD_mem_of_lt 0 indicator i hi
        have hm1 : indicator.getD (i + 1) 0 ∈ indicator := getD_mem_of_lt 0 indicator (i + 1) h1
        rcases h01 _ hm0 with e0 | e0 <;> rcases h01 _ hm1 with e1 | e1 <;>
          rw [e0, e1] at h2 <;> omega
      · exact absurd h (by norm_num)
    · rintro ⟨h0, h1, h2⟩
      rw [if_pos ⟨h1, by rw [h0, h2]; norm_num⟩]
  · intro hlast
    rw [hmain, if_neg]
    rintro ⟨h1, -⟩
    omega

/-- Witness for `initIndex_characterization` at indicator [1,0,1,1,0,1],
position 0 (a non-singleton track start). -/
theorem initIndex_witness :
    (initIndexOf [1, 0, 1, 1, 0, 1]).getD 0 0 = 1 :=
  (initIndex_characterization [1, 0, 1, 1, 0, 1] (by decide) 0 (by decide)).1.2
    ⟨by decide, by decide, by decide⟩

/-! ## Forced-split override: pointwise behaviour -/

/-- `forceSplitAux` preserves the length of the indicator list. -/
theorem forceSplitAux_length : ∀ (pLon pLat : ℚ) (is : List ℤ) (xs ys : List ℚ),
    (forceSplitAux pLon pLat is xs ys).length = is.length
  | _, _, [], xs, ys => by cases xs <;> cases ys <;> rfl
  | _, _, _ :: _, [], ys => by cases ys <;> rfl
  | _, _, _ :: _, _ :: _, [] => rfl
  | _, _, _ :: is, x :: xs, y :: ys => by
    simp [forceSplitAux, forceSplitAux_length x y is xs ys]

/-- `forceSplit` preserves the length of the indicator list. -/
theorem forceSplit_length (ind : List ℤ) (lon lat : List ℚ) :
    (forceSplit ind lon lat).length = ind.length := by
  rcases ind with _ | ⟨k, is⟩ <;> rcases lon with _ | ⟨x, xs⟩ <;>
    rcases lat with _ | ⟨y, ys⟩ <;> simp [forceSplit, forceSplitAux_length]

/-- `forceSplit` never touches the first position. -/
theorem forceSplit_getD_zero (ind : List ℤ) (lon lat : List ℚ) :
    (forceSplit ind lon lat).getD 0 0 = ind.getD 0 0 := by
  rcases ind with _ | ⟨k, is⟩ <;> rcases lon with _ | ⟨x, xs⟩ <;>
    rcases lat with _ | ⟨y, ys⟩ <;> rfl

/-- Pointwise value of `forceSplitAux`: the predecessor coordinates of
relative position i are the i-th entries of the lists with the carried pair
prepended. -/
theorem forceSplitAux_getD : ∀ (pLon pLat : ℚ) (is : List ℤ) (xs ys : List ℚ) (i : ℕ),
    i < is.length → i < xs.length → i < ys.length →
    (forceSplitAux pLon pLat is xs ys).getD i 0 =
      if xs.getD i 0 - (pLon :: xs).getD i 0 > 15 ∨ ys.getD i 0 - (pLat :: ys).getD i 0 > 5
      then 1 else is.getD i 0
  | _, _, k :: is, x :: xs, y :: ys, 0, _, _, _ => by simp [forceSplitAux]
  | pLon, pLat, k :: is, x :: xs, y :: ys, i + 1, hi, hx, hy => by
    have := forceSplitAux_getD x y is xs ys i (Nat.lt_of_succ_lt_succ hi)
      (Nat.lt_of_succ_lt_succ hx) (Nat.lt_of_succ_lt_succ hy)
    simpa [forceSplitAux] using this

/-- Pointwise value of `forceSplit` at positions with a predecessor. -/
theorem forceSplit_getD_pos (ind : List ℤ) (lon lat : List ℚ) (i : ℕ) (h1 : 1 ≤ i)
    (hiI : i < ind.length) (hiX : i < lon.length) (hiY : i < lat.length) :
    (forceSplit ind lon lat).getD i 0 =
      if lon.getD i 0 - lon.getD (i - 1) 0 > 15 ∨ lat.getD i 0 - lat.getD (i - 1) 0 > 5
      then 1 else ind.getD i 0 := by
  obtain ⟨j, rfl⟩ : ∃ j, i = j + 1 := ⟨i - 1, by omega⟩
  rcases ind with _ | ⟨k, is⟩
  · simp at hiI
  rcases lon with _ | ⟨x, xs⟩
  · simp at hiX
  rcases lat with _ | ⟨y, ys⟩
  · simp at hiY
  have := forceSplitAux_getD x y is xs ys j
    (Nat.lt_of_succ_lt_succ hiI) (Nat.lt_of_succ_lt_succ hiX) (Nat.lt_of_succ_lt_succ hiY)
  simpa [forceSplit] using this

/-! ## C1: forced-split override is on signed differences -/

/-- Counterexample to claim C1 as stated.  The override of lines 413-414
tests the signed differences `delta_lon > 15` and `delta_lat > 5`, not
their absolute values: with longitudes [200, 180] (a drop of 20 degrees, so
|delta_lon| = 20 > 15), equal latitudes, and a primary indicator [1, 0]
from the verbatim index column, the final indicator keeps 0 at position 1
where the claim demands 1. -/
theorem forcedSplit_ignores_negative_lon_jump :
    fullIndicator ⟨some [1, 0], none, none, none⟩ [200, 180] [0, 0] = some [1, 0]
      ∧ |(180 : ℚ) - 200| > 15 ∧ ((0 : ℤ) ≠ 1) := by
  refine ⟨?_, by norm_num, by decide⟩
  norm_num [fullIndicator, primaryIndicator, forceSplit, forceSplitAux]

/-- Claim C1 as amended (signed differences): for every pair of consecutive
observations whose longitude difference `lon[i] - lon[i-1]` exceeds 15
degrees or whose latitude difference `lat[i] - lat[i-1]` exceeds 5 degrees,
after segmentation the indicator is 1 at the later observation, regardless
of which primary strategy produced it. -/
theorem forcedSplit_signed_jump_forces_indicator (d : SegColumns) (lon lat : List ℚ)
    (ind : List ℤ) (h : fullIndicator d lon lat = some ind) (i : ℕ) (h1 : 1 ≤ i)
    (hiI : i < ind.length) (hiX : i < lon.length) (hiY : i < lat.length)
    (hjump : lon.getD i 0 - lon.getD (i - 1) 0 > 15 ∨ lat.getD i 0 - lat.getD (i - 1) 0 > 5) :
    ind.getD i 0 = 1 := by
  obtain ⟨ind0, hp, hind⟩ := Option.map_eq_some'.1 h
  subst hind
  rw [forceSplit_getD_pos ind0 lon lat i h1
    (by rwa [forceSplit_length] at hiI) hiX hiY, if_pos hjump]

/-- Witness for `forcedSplit_signed_jump_forces_indicator`: index column
[1, 0], longitudes [0, 20] (an eastward jump of 20 degrees). -/
theorem forcedSplit_signed_jump_witness :
    (forceSplit [1, 0] [0, 20] [0, 0]).getD 1 0 = 1 :=
  forcedSplit_signed_jump_forces_indicator ⟨some [1, 0], none, none, none⟩ [0, 20] [0, 0]
    (forceSplit [1, 0] [0, 20] [0, 0]) rfl 1 (by decide)
    (by rw [forceSplit_length]; decide) (by decide) (by decide)
    (Or.inl (by norm_num))

/-! ## C2: number-only segmentation -/

/-- Pointwise value of `numOnlyAux`: the previous number at relative
position i is the i-th entry of the list with the carried value prepended. -/
theorem numOnlyAux_getD : ∀ (prev : ℤ) (l : List ℤ) (i : ℕ), i < l.length →
    (numOnlyAux prev l).getD i 0 =
      if l.getD i 0 - (prev :: l).getD i 0 > 0 then 1 else l.getD i 0 - (prev :: l).getD i 0
  | _, n :: rest, 0, _ => by simp [numOnlyAux]
  | _, n :: rest, i + 1, hi => by
    simpa [numOnlyAux] using numOnlyAux_getD n rest i (Nat.lt_of_succ_lt_succ hi)

/-- Counterexample to claim C2 as stated.  With only a `num` column holding
[1, 3, 2] (and no geographic jump), the code stores the raw difference
2 - 3 = -1 at position 2 — `ind_[where(ind_ > 0)] = 1` clamps only positive
differences — where the claim demands 0. -/
theorem numOnly_decrease_not_zero :
    fullIndicator ⟨none, none, none, some [1, 3, 2]⟩ [0, 0, 0] [0, 0, 0] = some [1, 1, -1]
      ∧ ((-1 : ℤ) ≠ 0) := by
  refine ⟨?_, by decide⟩
  norm_num [fullIndicator, primaryIndicator, forceSplit, forceSplitAux,
    numOnlyIndicator, numOnlyAux]

/-- Claim C2 as amended: under the number-only strategy, `indicator[0] = 1`
and for every i >= 1, `indicator[i] = 1` when `number[i] > number[i-1]`,
and otherwise `indicator[i] = number[i] - number[i-1]` (0 when the number
repeats, the raw negative difference when it decreases). -/
theorem numOnly_indicator_characterization (num : List ℤ) (i : ℕ)
    (hi : i < num.length) (h1 : 1 ≤ i) :
    (numOnlyIndicator num).getD i 0 =
        (if num.getD (i - 1) 0 < num.getD i 0 then 1 else num.getD i 0 - num.getD (i - 1) 0)
      ∧ (numOnlyIndicator num).getD 0 0 = 1 := by
  obtain ⟨j, rfl⟩ : ∃ j, i = j + 1 := ⟨i - 1, by omega⟩
  rcases num with _ | ⟨n, rest⟩
  · simp at hi
  constructor
  · have := numOnlyAux_getD n rest j (Nat.lt_of_succ_lt_succ hi)
    have hstep : (numOnlyIndicator (n :: rest)).getD (j + 1) 0 =
        (numOnlyAux n rest).getD j 0 := by
      simp [numOnlyIndicator]
    rw [hstep, this]
    have hcond : (rest.getD j 0 - (n :: rest).getD j 0 > 0) ↔
        ((n :: rest).getD j 0 < rest.getD j 0) := sub_pos
    simp only [List.getD_cons_succ, Nat.add_sub_cancel]
    split_ifs with h2 h3 h3
    · rfl
    · exact absurd (hcond.1 h2) h3
    · exact absurd (hcond.2 h3) h2
    · rfl
  · rfl

/-- Witness for `numOnly_indicator_characterization` at num = [1, 3, 2],
position 1 (an increase). -/
theorem numOnly_indicator_witness :
    (numOnlyIndicator [1, 3, 2]).getD 1 0 =
        (if ([1, 3, 2] : List ℤ).getD 0 0 < ([1, 3, 2] : List ℤ).getD 1 0 then 1
         else ([1, 3, 2] : List ℤ).getD 1 0 - ([1, 3, 2] : List ℤ).getD 0 0)
      ∧ (numOnlyIndicator [1, 3, 2]).getD 0 0 = 1 :=
  numOnly_indicator_characterization [1, 3, 2] 1 (by decide) (by decide)

/-! ## C5: the first observation's indicator -/

/-- Counterexample to claim C5 as stated.  With an explicit index column the
indicator is used verbatim (line 282) and the forced split only touches
positions with a predecessor, so an input whose index column starts with 0
yields `indicator[0] = 0`. -/
theorem index_column_first_obs_not_forced :
    fullIndicator ⟨some [0, 0], none, none, none⟩ [0, 0] [0, 0] = some [0, 0]
      ∧ ((0 : ℤ) ≠ 1) := by
  refine ⟨?_, by decide⟩
  norm_num [fullIndicator, primaryIndicator, forceSplit, forceSplitAux]

/-- Claim C5 as amended: under every strategy other than the verbatim index
column (serial number, season+number, number-only), the first observation of
the dataset always begins a track: `indicator[0] = 1`.  (With an index
column, `indicator[0]` is whatever the file provides.) -/
theorem first_obs_indicator_one_without_index (d : SegColumns) (lon lat : List ℚ)
    (ind : List ℤ) (hidx : d.index = none) (h : fullIndicator d lon lat = some ind)
    (hne : ind ≠ []) : ind.getD 0 0 = 1 := by
  obtain ⟨ind0, hp, hind⟩ := Option.map_eq_some'.1 h
  subst hind
  rw [forceSplit_getD_zero]
  have hne0 : ind0 ≠ [] := by
    intro h0
    subst h0
    apply hne
    rcases lon with _ | ⟨x, xs⟩ <;> rcases lat with _ | ⟨y, ys⟩ <;> rfl
  rw [primaryIndicator, hidx] at hp
  rcases hsn : d.tcserialno with - | sn
  · rw [hsn] at hp
    rcases hse : d.season with - | se <;> rcases hnu : d.num with - | nu <;>
        rw [hse, hnu] at hp <;> simp only at hp
    · cases hp
    · obtain rfl := Option.some.inj hp
      rcases nu with _ | ⟨n, rest⟩
      · exact absurd rfl hne0
      · rfl
    · cases hp
    · obtain rfl := Option.some.inj hp
      rcases se with _ | ⟨s, se'⟩
      · exact absurd rfl hne0
      rcases nu with _ | ⟨n, nu'⟩
      · exact absurd rfl hne0
      · rfl
  · rw [hsn] at hp
    simp only at hp
    obtain rfl := Option.some.inj hp
    rcases sn with _ | ⟨s, rest⟩
    · exact absurd rfl hne0
    · rfl

/-- Witness for `first_obs_indicator_one_without_index`: a two-record serial
number column with a repeated serial. -/
theorem first_obs_indicator_witness :
    (forceSplit (serialIndicator ["A", "A"]) [0, 0] [0, 0]).getD 0 0 = 1 :=
  first_obs_indicator_one_without_index ⟨none, some ["A", "A"], none, none⟩ [0, 0] [0, 0]
    (forceSplit (serialIndicator ["A", "A"]) [0, 0] [0, 0]) rfl rfl (by decide)

/-! ## C3: date-parse failure is not fatal (code bug) -/

/-- A concrete stand-in for `datetime.datetime.strptime` with the default
format: it parses exactly one date string and rejects everything else. -/
def strptimeOneGood : String → Option DateRec :=
  fun s => if s = "2000-01-01 00:00:00" then some ⟨2000, 1, 1, 0, 0⟩ else none

/-- Claim C3 is about the code at lines 324-336: the `except ValueError`
branch logs three critical messages but, unlike the two date blocks below it
(lines 386-397), never calls `sys.exit`, and the loop then runs
`year[i] = d.year` with `d` still bound to the previous record's parse.  On
the failing input ["2000-01-01 00:00:00", "NOT-A-DATE"] the run does not
abort: it completes and silently assigns record 0's date fields to
record 1, exactly the stale-value continuation the claim (and the spec)
says cannot happen. -/
theorem dateParse_failure_not_fatal :
    parseDates strptimeOneGood ["2000-01-01 00:00:00", "NOT-A-DATE"] =
      some [⟨2000, 1, 1, 0, 0⟩, ⟨2000, 1, 1, 0, 0⟩] := by
  rfl

/-! ## C7: missing max-wind column -/

/-- Counterexample to claim C7 as stated.  The recovery path of line 447 is
`vmax = empty(indicator.size, 'f')`: `numpy.empty` leaves the array
uninitialised, so its entries are arbitrary, not "the sentinel or zero" —
here the reclaimed memory holds 7.0 and the synthesized array is [7]. -/
theorem vmax_substitute_not_sentinel_or_zero :
    getVmaxStep none id 1 [7] = (true, [7])
      ∧ ¬ ((7 : ℚ) = maxintQ ∨ (7 : ℚ) = 0) := by
  constructor
  · rfl
  · rw [maxintQ]
    norm_num

/-- Claim C7 as amended: when the input provides no `vmax` column, a warning
is issued and a substitute array of the same length as the indicator is
allocated with unspecified (uninitialised) contents, and processing
continues (the `KeyError` is caught, so this path always returns). -/
theorem vmax_missing_recovered (conv : ℚ → ℚ) (n : ℕ) (mem : List ℚ)
    (hmem : n ≤ mem.length) :
    (getVmaxStep none conv n mem).1 = true
      ∧ (getVmaxStep none conv n mem).2.length = n := by
  constructor
  · rfl
  · simp [getVmaxStep, hmem]

/-- Witness for `vmax_missing_recovered` at n = 2 and memory [3, 4, 5]. -/
theorem vmax_missing_recovered_witness :
    (getVmaxStep none id 2 [3, 4, 5]).1 = true
      ∧ (getVmaxStep none id 2 [3, 4, 5]).2.length = 2 :=
  vmax_missing_recovered id 2 [3, 4, 5] (by decide)

/-! ## C6: pressure-rate sentinel masking -/

/-- `diffF` shortens the list by one. -/
theorem diffF_length : ∀ l : List FVal, (diffF l).length = l.length - 1
  | [] => rfl
  | [_] => rfl
  | a :: b :: rest => by
    have := diffF_length (b :: rest)
    simp [diffF] at this ⊢
    omega

/-- The sentinel compares `>= sys.maxint` as true. -/
theorem sentinelF_geQ : sentinelF.geQ maxintQ = true := by
  simp [sentinelF, FVal.geQ]

/-- The sentinel is not NaN. -/
theorem sentinelF_isnan : sentinelF.isnan = false := rfl

/-- The sentinel's magnitude exceeds 10, so re-masking keeps it fixed. -/
theorem sentinelF_absGt : sentinelF.absGt 10 = true := by
  simp only [sentinelF, FVal.absGt, maxintQ]
  norm_num

/-- Pointwise value of `pressureRateOf`: the i-th output is the raw rate
passed through the four masks of lines 726-729 in order. -/
theorem pressureRateOf_getD (pressure dt : List FVal) (ind : List ℤ) (pc0 : FVal)
    (hdt : dt.length = pressure.length) (hind : ind.length = pressure.length)
    (i : ℕ) (hi : i < pressure.length) :
    (pressureRateOf pressure dt ind pc0).getD i .nan =
      maskBig (maskNaN
        (if (pressure.getD i .nan).geQ maxintQ then sentinelF
         else if ind.getD i 0 ≠ 0 then sentinelF
         else (rawPressureRate pressure dt pc0).getD i .nan)) := by
  have hpc : (pc0 :: diffF pressure).length = pressure.length := by
    simp only [List.length_cons, diffF_length]
    omega
  have hraw : (rawPressureRate pressure dt pc0).length = pressure.length := by
    simp [rawPressureRate, hpc, hdt]
  have h1 : (List.zipWith (fun r k => if k ≠ 0 then sentinelF else r)
      (rawPressureRate pressure dt pc0) ind).length = pressure.length := by
    simp [hraw, hind]
  have h2 : ((List.zipWith (fun r k => if k ≠ 0 then sentinelF else r)
      (rawPressureRate pressure dt pc0) ind).zipWith
      (fun r p => if p.geQ maxintQ then sentinelF else r) pressure).length = pressure.length := by
    simp [hraw, hind]
  rw [pressureRateOf,
    getD_map_of_lt maskBig FVal.nan FVal.nan _ i (by rw [List.length_map, h2]; exact hi),
    getD_map_of_lt maskNaN FVal.nan FVal.nan _ i (by rw [h2]; exact hi),
    getD_zipWith_of_lt (fun r p => if p.geQ maxintQ then sentinelF else r)
      FVal.nan FVal.nan FVal.nan _ _ i (by rw [h1]; exact hi) hi,
    getD_zipWith_of_lt (fun r k => if k ≠ 0 then sentinelF else r)
      FVal.nan (0 : ℤ) FVal.nan _ _ i (by rw [hraw]; exact hi) (by rw [hind]; exact hi)]

/-- Claim C6 (confirmed).  For the rate of pressure change
(`_pressureRate`, lines 695-735): a sentinel pressure at position i forces
the sentinel in the rate at i (and, witnessed by the concrete final
conjunct, this rule alone does not force the sentinel at i+1); the rate is
the sentinel at every track-start position, at every non-finite raw result,
and wherever the raw magnitude exceeds 10 hPa/hr; consequently every
non-sentinel rate entry is finite with absolute value at most 10. -/
theorem pressureRate_masking (pressure dt : List FVal) (ind : List ℤ) (pc0 : FVal)
    (hdt : dt.length = pressure.length) (hind : ind.length = pressure.length)
    (i : ℕ) (hi : i < pressure.length) :
    (pressure.getD i .nan = sentinelF →
        (pressureRateOf pressure dt ind pc0).getD i .nan = sentinelF)
      ∧ (ind.getD i 0 ≠ 0 →
        (pressureRateOf pressure dt ind pc0).getD i .nan = sentinelF)
      ∧ (((rawPressureRate pressure dt pc0).getD i .nan).isFinite = false →
        (pressureRateOf pressure dt ind pc0).getD i .nan = sentinelF)
      ∧ (((rawPressureRate pressure dt pc0).getD i .nan).absGt 10 = true →
        (pressureRateOf pressure dt ind pc0).getD i .nan = sentinelF)
      ∧ ((pressureRateOf pressure dt ind pc0).getD i .nan ≠ sentinelF →
        ∃ q : ℚ, (pressureRateOf pressure dt ind pc0).getD i .nan = .fin q ∧ |q| ≤ 10)
      ∧ (pressureRateOf [sentinelF, .fin 0] [.fin 1, .fin maxintQ] [1, 0] (.fin 0) =
          [sentinelF, .fin (-1)] ∧ FVal.fin (-1) ≠ sentinelF) := by
  have hmain := pressureRateOf_getD pressure dt ind pc0 hdt hind i hi
  refine ⟨fun h => ?_, fun h => ?_, fun h => ?_, fun h => ?_, fun h => ?_, ?_, ?_⟩
  · rw [hmain, h, if_pos sentinelF_geQ]
    simp [maskNaN, maskBig, sentinelF_isnan, sentinelF_absGt]
  · rw [hmain]
    split_ifs <;> simp_all [maskNaN, maskBig, sentinelF_isnan, sentinelF_absGt]
  · rw [hmain]
    rcases hv : (rawPressureRate pressure dt pc0).getD i FVal.nan with q | - | - | -
    all_goals rw [hv] at h
    · simp [FVal.isFinite] at h
    all_goals split_ifs <;>
      simp [maskNaN, maskBig, FVal.isnan, FVal.absGt, sentinelF_isnan, sentinelF_absGt]
  · rw [hmain]
    rcases hv : (rawPressureRate pressure dt pc0).getD i FVal.nan with q | - | - | -
    all_goals rw [hv] at h
    · simp only [FVal.absGt, decide_eq_true_eq] at h
      split_ifs <;>
        simp [maskNaN, maskBig, FVal.isnan, FVal.absGt, h,
          sentinelF_isnan, sentinelF_absGt]
    · split_ifs <;>
        simp [maskNaN, maskBig, FVal.isnan, FVal.absGt, sentinelF_isnan, sentinelF_absGt]
    · split_ifs <;>
        simp [maskNaN, maskBig, FVal.isnan, FVal.absGt, sentinelF_isnan, sentinelF_absGt]
    · simp [FVal.absGt] at h
  · rw [hmain] at h ⊢
    generalize hm2 : (if (pressure.getD i FVal.nan).geQ maxintQ then sentinelF
        else if ind.getD i 0 ≠ 0 then sentinelF
        else (rawPressureRate pressure dt pc0).getD i FVal.nan) = m2 at h ⊢
    clear hm2 hmain
    rcases m2 with q | - | - | -
    · simp only [maskNaN, FVal.isnan, if_neg Bool.false_ne_true, Bool.false_eq_true,
        if_false] at h ⊢
      by_cases hq : |q| > 10
      · exact absurd (by simp [maskBig, FVal.absGt, hq]) h
      · exact ⟨q, by simp [maskBig, FVal.absGt, hq], by linarith [not_lt.1 hq]⟩
    · exact absurd (by simp [maskNaN, maskBig, FVal.isnan, FVal.absGt]) h
    · exact absurd (by simp [maskNaN, maskBig, FVal.isnan, FVal.absGt]) h
    · exact absurd (by simp [maskNaN, maskBig, FVal.isnan,
        sentinelF_isnan, sentinelF_absGt]) h
  · show pressureRateOf [sentinelF, .fin 0] [.fin 1, .fin maxintQ] [1, 0] (.fin 0) =
      [sentinelF, .fin (-1)]
    norm_num [pressureRateOf, rawPressureRate, diffF, maskNaN, maskBig,
      FVal.sub, FVal.div, FVal.geQ, FVal.isnan, FVal.absGt, sentinelF, maxintQ]
  · simp only [sentinelF, maxintQ, ne_eq, FVal.fin.injEq]
    norm_num

/-- Witness for `pressureRate_masking` at the concrete input of its final
conjunct: position 0 is a track start, so the rate is the sentinel there. -/
theorem pressureRate_masking_witness :
    (pressureRateOf [sentinelF, .fin 0] [.fin 1, .fin maxintQ] [1, 0]
      (.fin 0)).getD 0 .nan = sentinelF :=
  (pressureRate_masking [sentinelF, .fin 0] [.fin 1, .fin maxintQ] [1, 0] (.fin 0)
    rfl rfl 0 (by decide)).2.1 (by decide)

end TCRM
